import Mathlib

/-!
Verification model of the Data Alchemist data-cleaning tool
(`src/app/page.tsx`): normalization, validation, AI-search fallback,
export, and the data-quality score, shallowly embedded in Lean.

JavaScript numbers that flow through `parseInt` are modelled as
`Option Int`: `none` stands for `NaN` (a comparison against `NaN` is
always false), `some n` for the integer `n`.  Host builtins
(`JSON.parse`, `JSON.stringify`, `parseInt`) are modelled concretely on
the integer/string fragment the application uses.
-/

/-- JSON values, the model of untyped JavaScript data (`any`).
Numbers are restricted to integers, the fragment the application's
data actually uses. -/
inductive Json where
  | null : Json
  | bool (b : Bool) : Json
  | num (n : Int) : Json
  | str (s : String) : Json
  | arr (items : List Json) : Json
  | obj (fields : List (String × Json)) : Json

/-- Escape one character the way `JSON.stringify` escapes string data
(quote and backslash; other characters are kept verbatim). -/
def escapeJsonChar (c : Char) : String :=
  if c = '"' then "\\\"" else if c = '\\' then "\\\\" else String.singleton c

/-- Escaping of a whole string for `JSON.stringify`. -/
def escapeJsonString (s : String) : String :=
  String.join (s.toList.map escapeJsonChar)

mutual

/-- Model of the host `JSON.stringify` on `Json` values. -/
def jsonStringify : Json → String
  | .null => "null"
  | .bool true => "true"
  | .bool false => "false"
  | .num n => toString n
  | .str s => "\"" ++ escapeJsonString s ++ "\""
  | .arr items => "[" ++ stringifyItems items ++ "]"
  | .obj fields => "\x7b" ++ stringifyFields fields ++ "\x7d"

/-- Comma-separated serialization of array elements. -/
def stringifyItems : List Json → String
  | [] => ""
  | [x] => jsonStringify x
  | x :: xs => jsonStringify x ++ "," ++ stringifyItems xs

/-- Comma-separated serialization of object fields. -/
def stringifyFields : List (String × Json) → String
  | [] => ""
  | [(k, v)] => "\"" ++ escapeJsonString k ++ "\":" ++ jsonStringify v
  | (k, v) :: xs =>
    "\"" ++ escapeJsonString k ++ "\":" ++ jsonStringify v ++ "," ++ stringifyFields xs

end

/-- JSON whitespace skipping. -/
def skipWs (cs : List Char) : List Char :=
  cs.dropWhile (fun c => c == ' ' || c == '\t' || c == '\n' || c == '\r')

/-- Digits to the natural number they denote in base 10. -/
def digitsToNat (ds : List Char) : Nat :=
  ds.foldl (fun a c => 10 * a + (c.toNat - 48)) 0

/-- Body of a JSON string literal, after the opening quote: returns the
decoded string and the remaining input. -/
def parseStringBody : List Char → Option (String × List Char)
  | [] => none
  | '"' :: rest => some ("", rest)
  | '\\' :: c :: rest =>
    (parseStringBody rest).map (fun p =>
      (((if c = 'n' then "\n"
          else if c = 't' then "\t"
          else if c = 'r' then "\r"
          else String.singleton c)) ++ p.1, p.2))
  | c :: rest =>
    (parseStringBody rest).map (fun p => (String.singleton c ++ p.1, p.2))

mutual

/-- Fuel-indexed recursive-descent parser for one JSON value; the model
of the host `JSON.parse` (integer numbers only). -/
def parseJsonValue : Nat → List Char → Option (Json × List Char)
  | 0, _ => none
  | fuel + 1, cs =>
    match skipWs cs with
    | 'n' :: 'u' :: 'l' :: 'l' :: rest => some (.null, rest)
    | 't' :: 'r' :: 'u' :: 'e' :: rest => some (.bool true, rest)
    | 'f' :: 'a' :: 'l' :: 's' :: 'e' :: rest => some (.bool false, rest)
    | '"' :: rest => (parseStringBody rest).map (fun p => (.str p.1, p.2))
    | '[' :: rest =>
      match skipWs rest with
      | ']' :: r2 => some (.arr [], r2)
      | r2 => (parseJsonItems fuel r2).map (fun p => (.arr p.1, p.2))
    | '\x7b' :: rest =>
      match skipWs rest with
      | '\x7d' :: r2 => some (.obj [], r2)
      | r2 => (parseJsonFields fuel r2).map (fun p => (.obj p.1, p.2))
    | '-' :: rest =>
      let ds := rest.takeWhile Char.isDigit
      if ds.isEmpty then none
      else some (.num (-(digitsToNat ds : Int)), rest.drop ds.length)
    | c :: rest =>
      if c.isDigit then
        let ds := (c :: rest).takeWhile Char.isDigit
        some (.num (digitsToNat ds : Int), (c :: rest).drop ds.length)
      else none
    | [] => none

/-- One or more comma-separated array items followed by `]`. -/
def parseJsonItems : Nat → List Char → Option (List Json × List Char)
  | 0, _ => none
  | fuel + 1, cs =>
    match parseJsonValue fuel cs with
    | none => none
    | some (v, rest) =>
      match skipWs rest with
      | ',' :: r2 =>
        (parseJsonItems fuel r2).map (fun p => (v :: p.1, p.2))
      | ']' :: r2 => some ([v], r2)
      | _ => none

/-- One or more comma-separated object fields followed by the closing
brace. -/
def parseJsonFields : Nat → List Char → Option (List (String × Json) × List Char)
  | 0, _ => none
  | fuel + 1, cs =>
    match skipWs cs with
    | '"' :: rest =>
      match parseStringBody rest with
      | none => none
      | some (k, r1) =>
        match skipWs r1 with
        | ':' :: r2 =>
          match parseJsonValue fuel r2 with
          | none => none
          | some (v, r3) =>
            match skipWs r3 with
            | ',' :: r4 =>
              (parseJsonFields fuel r4).map (fun p => ((k, v) :: p.1, p.2))
            | '\x7d' :: r4 => some ([(k, v)], r4)
            | _ => none
        | _ => none
    | _ => none

end

/-- Model of the host `JSON.parse`: `some` value on success, `none`
where `JSON.parse` would throw. -/
def jsonParse (s : String) : Option Json :=
  match parseJsonValue (2 * s.length + 2) s.toList with
  | some (v, rest) => if skipWs rest = [] then some v else none
  | none => none

/-- Model of the host `parseInt` (radix 10): skip leading whitespace, an
optional sign, then a maximal run of decimal digits; `none` is `NaN`. -/
def jsParseInt (s : String) : Option Int :=
  let cs := s.toList.dropWhile (fun c => c == ' ' || c == '\t' || c == '\n' || c == '\r')
  match cs with
  | '-' :: rest =>
    let ds := rest.takeWhile Char.isDigit
    if ds.isEmpty then none else some (-(digitsToNat ds : Int))
  | '+' :: rest =>
    let ds := rest.takeWhile Char.isDigit
    if ds.isEmpty then none else some ((digitsToNat ds : Int))
  | _ =>
    let ds := cs.takeWhile Char.isDigit
    if ds.isEmpty then none else some ((digitsToNat ds : Int))

/-- JavaScript `a < b` where `a` may be `NaN` (`none`): false on `NaN`. -/
def jsLt (a : Option Int) (b : Int) : Bool :=
  match a with
  | none => false
  | some x => x < b

/-- JavaScript `a > b` where `a` may be `NaN` (`none`): false on `NaN`. -/
def jsGt (a : Option Int) (b : Int) : Bool :=
  match a with
  | none => false
  | some x => x > b

/-- Rendering of a possibly-`NaN` number inside a template string. -/
def numToString : Option Int → String
  | none => "NaN"
  | some n => toString n

/-- JavaScript string-or-default `row.x || 'd'` on an optional string
field: missing and empty strings are falsy. -/
def orDefault (v : Option String) (d : String) : String :=
  match v with
  | none => d
  | some s => if s = "" then d else s

/-- Whitespace as skipped by the JavaScript string builtins. -/
def isWsChar (c : Char) : Bool :=
  c == ' ' || c == '\t' || c == '\n' || c == '\r'

/-- Model of JavaScript `String.prototype.trim`. -/
def jsTrim (s : String) : String :=
  String.mk (((s.toList.dropWhile isWsChar).reverse.dropWhile isWsChar).reverse)

/-- Splitting a character list at every occurrence of a separator; the
list of groups is never empty. -/
def splitChars (sep : Char) : List Char → List (List Char)
  | [] => [[]]
  | c :: cs =>
    match splitChars sep cs with
    | [] => [[]]
    | g :: gs => if c == sep then [] :: g :: gs else (c :: g) :: gs

/-- Model of JavaScript `String.prototype.split` with a one-character
separator: `''.split(sep)` is `['']`. -/
def jsSplit (s : String) (sep : Char) : List String :=
  (splitChars sep s.toList).map String.mk

/-- Does `cs` start with `pat`? -/
def chunkAt : List Char → List Char → Bool
  | [], _ => true
  | _ :: _, [] => false
  | p :: ps, c :: cs => p == c && chunkAt ps cs

/-- Model of JavaScript `String.prototype.includes`:
`strIncludes s q` is true when `q` occurs in `s` as a substring. -/
def strIncludes (s q : String) : Bool :=
  go q.toList s.toList
where
  go (pat : List Char) : List Char → Bool
    | [] => pat.isEmpty
    | c :: cs => chunkAt pat (c :: cs) || go pat cs

/-- Model of JavaScript `String.prototype.toLowerCase` (ASCII range). -/
def jsToLower (s : String) : String :=
  String.mk (s.toList.map Char.toLower)

/-- Model of `s.startsWith(p)`. -/
def jsStartsWith (s p : String) : Bool :=
  chunkAt p.toList s.toList

/-- Model of `s.endsWith(p)`. -/
def jsEndsWith (s p : String) : Bool :=
  chunkAt p.toList.reverse s.toList.reverse

/-- Does the string contain the character? Model of `s.includes(c)` for
a one-character needle. -/
def strHasChar (s : String) (c : Char) : Bool :=
  s.toList.contains c

/-- Model of `(s || '').split(',').map(t => t.trim()).filter(Boolean)`. -/
def splitTrimFilter (v : Option String) : List String :=
  ((jsSplit (orDefault v "") ',').map jsTrim).filter (fun s => !(s == ""))

/-- Reads a `Json` array whose items are all numbers as an integer
list; the application's slot/phase arrays are integer arrays. -/
def jsonToIntList : List Json → Option (List Int)
  | [] => some []
  | .num n :: rest => (jsonToIntList rest).map (fun xs => n :: xs)
  | _ => none

/-- Function `parseSlots` from `src/app/page.tsx`: bracketed input goes through
`JSON.parse` (empty list when it throws), otherwise the comma-separated
entries are parsed with `parseInt` and the `NaN`s dropped. -/
def parseSlots (slotsString : String) : List Int :=
  if jsStartsWith slotsString "[" && jsEndsWith slotsString "]" then
    match jsonParse slotsString with
    | some (.arr items) => (jsonToIntList items).getD []
    | _ => []
  else
    ((jsSplit slotsString ',').map (fun s => jsParseInt (jsTrim s))).filterMap id

/-- The loop `for (let i = start; i <= end; i++) result.push(i)`: empty
when either bound is `NaN` or the range is descending. -/
def phaseRange (start stop : Option Int) : List Int :=
  match start, stop with
  | some a, some b => (List.range (b - a + 1).toNat).map (fun (i : Nat) => a + (i : Int))
  | _, _ => []

/-- Function `parsePhases` from `src/app/page.tsx`: an input containing `-` is
read as a numeric range via the first two `-`-separated parts,
anything else is delegated to `parseSlots`. -/
def parsePhases (phasesString : String) : List Int :=
  if strHasChar phasesString '-' then
    let parts := (jsSplit phasesString '-').map (fun s => jsParseInt (jsTrim s))
    phaseRange (parts.getD 0 none) (parts.getD 1 none)
  else
    parseSlots phasesString

namespace DataAlchemist

/-- The `Client` record of `src/app/page.tsx` after normalization. -/
structure Client where
  ClientID : String
  ClientName : String
  PriorityLevel : Option Int
  RequestedTaskIDs : List String
  GroupTag : String
  AttributesJSON : Json

/-- The `Worker` record of `src/app/page.tsx` after normalization. -/
structure Worker where
  WorkerID : String
  WorkerName : String
  Skills : List String
  AvailableSlots : List Int
  MaxLoadPerPhase : Option Int
  WorkerGroup : String
  QualificationLevel : Option Int
  deriving DecidableEq

/-- The `Task` record of `src/app/page.tsx` after normalization. -/
structure Task where
  TaskID : String
  TaskName : String
  Category : String
  Duration : Option Int
  RequiredSkills : List String
  PreferredPhases : List Int
  MaxConcurrent : Option Int
  deriving DecidableEq

/-- The `'error' | 'warning'` tag of `ValidationError`. -/
inductive ErrKind where
  | error : ErrKind
  | warning : ErrKind
  deriving DecidableEq

/-- The `ValidationError` record of `src/app/page.tsx`. -/
structure ValidationError where
  id : String
  type : ErrKind
  entityId : String
  field : Option String
  message : String
  suggestion : Option String
  deriving DecidableEq

/-- A raw uploaded spreadsheet row: every column the three normalizers
read, each possibly missing.  CSV parsing yields string cells, so cell
values are strings. -/
structure RawRow where
  ClientID : Option String
  ClientName : Option String
  PriorityLevel : Option String
  RequestedTaskIDs : Option String
  GroupTag : Option String
  AttributesJSON : Option String
  WorkerID : Option String
  WorkerName : Option String
  Skills : Option String
  AvailableSlots : Option String
  MaxLoadPerPhase : Option String
  WorkerGroup : Option String
  QualificationLevel : Option String
  TaskID : Option String
  TaskName : Option String
  Category : Option String
  Duration : Option String
  RequiredSkills : Option String
  PreferredPhases : Option String
  MaxConcurrent : Option String
  deriving DecidableEq

/-- A raw row with every column absent. -/
def RawRow.empty : RawRow :=
  ⟨none, none, none, none, none, none, none, none, none, none,
   none, none, none, none, none, none, none, none, none, none⟩

/-- The `clients` branch of `normalizeData` applied to the row at the
given index. -/
def normalizeClientRow (index : Nat) (row : RawRow) : Client :=
  { ClientID := orDefault row.ClientID ("C" ++ toString (index + 1))
    ClientName := orDefault row.ClientName "Unknown"
    PriorityLevel := jsParseInt (orDefault row.PriorityLevel "1")
    RequestedTaskIDs := splitTrimFilter row.RequestedTaskIDs
    GroupTag := orDefault row.GroupTag "Default"
    AttributesJSON :=
      match row.AttributesJSON with
      | some s => (jsonParse s).getD (Json.obj [])
      | none => Json.obj [] }

/-- The `workers` branch of `normalizeData`. -/
def normalizeWorkerRow (index : Nat) (row : RawRow) : Worker :=
  { WorkerID := orDefault row.WorkerID ("W" ++ toString (index + 1))
    WorkerName := orDefault row.WorkerName "Unknown"
    Skills := splitTrimFilter row.Skills
    AvailableSlots := parseSlots (orDefault row.AvailableSlots "[]")
    MaxLoadPerPhase := jsParseInt (orDefault row.MaxLoadPerPhase "1")
    WorkerGroup := orDefault row.WorkerGroup "Default"
    QualificationLevel := jsParseInt (orDefault row.QualificationLevel "1") }

/-- The `tasks` branch of `normalizeData`. -/
def normalizeTaskRow (index : Nat) (row : RawRow) : Task :=
  { TaskID := orDefault row.TaskID ("T" ++ toString (index + 1))
    TaskName := orDefault row.TaskName "Unknown"
    Category := orDefault row.Category "General"
    Duration := jsParseInt (orDefault row.Duration "1")
    RequiredSkills := splitTrimFilter row.RequiredSkills
    PreferredPhases := parsePhases (orDefault row.PreferredPhases "[]")
    MaxConcurrent := jsParseInt (orDefault row.MaxConcurrent "1") }

/-- Function `normalizeData(rawData, 'clients')`: `rawData.map((row, index) => ...)`. -/
def normalizeClients (rawData : List RawRow) : List Client :=
  rawData.mapIdx normalizeClientRow

/-- Function `normalizeData(rawData, 'workers')`. -/
def normalizeWorkers (rawData : List RawRow) : List Worker :=
  rawData.mapIdx normalizeWorkerRow

/-- Function `normalizeData(rawData, 'tasks')`. -/
def normalizeTasks (rawData : List RawRow) : List Task :=
  rawData.mapIdx normalizeTaskRow

/-- The duplicate-client-ID error pushed by `validateData`. -/
def dupClientError (cid : String) : ValidationError :=
  { id := "dup-client-" ++ cid
    type := .error
    entityId := cid
    field := some "ClientID"
    message := "Duplicate Client ID: " ++ cid
    suggestion := some "Use unique IDs for each client" }

/-- The priority-range error pushed by `validateData`. -/
def priorityError (c : Client) : ValidationError :=
  { id := "priority-" ++ c.ClientID
    type := .error
    entityId := c.ClientID
    field := some "PriorityLevel"
    message := "Priority must be 1-5, got " ++ numToString c.PriorityLevel
    suggestion := some "Set priority between 1 and 5" }

/-- The unknown-task-reference error pushed by `validateData`. -/
def unknownTaskError (cid tid : String) : ValidationError :=
  { id := "unknown-task-" ++ cid ++ "-" ++ tid
    type := .error
    entityId := cid
    field := some "RequestedTaskIDs"
    message := "Unknown task ID: " ++ tid
    suggestion := some "Remove invalid task ID or add corresponding task" }

/-- The duplicate-worker-ID error pushed by `validateData`. -/
def dupWorkerError (wid : String) : ValidationError :=
  { id := "dup-worker-" ++ wid
    type := .error
    entityId := wid
    field := some "WorkerID"
    message := "Duplicate Worker ID: " ++ wid
    suggestion := some "Use unique IDs for each worker" }

/-- The qualification-range error pushed by `validateData`. -/
def qualError (w : Worker) : ValidationError :=
  { id := "qual-" ++ w.WorkerID
    type := .error
    entityId := w.WorkerID
    field := some "QualificationLevel"
    message := "Qualification must be 1-5, got " ++ numToString w.QualificationLevel
    suggestion := some "Set qualification between 1 and 5" }

/-- The duration error pushed by `validateData`. -/
def durationError (t : Task) : ValidationError :=
  { id := "duration-" ++ t.TaskID
    type := .error
    entityId := t.TaskID
    field := some "Duration"
    message := "Duration must be at least 1, got " ++ numToString t.Duration
    suggestion := some "Set duration to positive number" }

/-- The `clients.forEach` pass of `validateData`: a duplicate-ID error
when the ID was already seen (the `clientIds` set), then a priority
error when the level is out of range. -/
def clientPassErrors (seen : List String) : List Client → List ValidationError
  | [] => []
  | c :: rest =>
    (if seen.contains c.ClientID then [dupClientError c.ClientID] else [])
      ++ (if jsLt c.PriorityLevel 1 || jsGt c.PriorityLevel 5 then [priorityError c] else [])
      ++ clientPassErrors (c.ClientID :: seen) rest

/-- Unknown-task errors for one client: its `RequestedTaskIDs` entries
(already an array after normalization) absent from the task-ID set. -/
def clientRefErrors (taskIds : List String) (c : Client) : List ValidationError :=
  (c.RequestedTaskIDs.filter (fun tid => !(taskIds.contains tid))).map
    (unknownTaskError c.ClientID)

/-- The task-reference pass of `validateData` over all clients. -/
def refPassErrors (clients : List Client) (taskIds : List String) : List ValidationError :=
  clients.flatMap (clientRefErrors taskIds)

/-- The `workers.forEach` pass of `validateData`. -/
def workerPassErrors (seen : List String) : List Worker → List ValidationError
  | [] => []
  | w :: rest =>
    (if seen.contains w.WorkerID then [dupWorkerError w.WorkerID] else [])
      ++ (if jsLt w.QualificationLevel 1 || jsGt w.QualificationLevel 5 then [qualError w] else [])
      ++ workerPassErrors (w.WorkerID :: seen) rest

/-- The `tasks.forEach` pass of `validateData`: only the duration
check. -/
def taskPassErrors (tasks : List Task) : List ValidationError :=
  tasks.flatMap (fun t => if jsLt t.Duration 1 then [durationError t] else [])

/-- Function `validateData` from `src/app/page.tsx`: the four passes, in source
order, into one error list. -/
def validateData (clients : List Client) (workers : List Worker)
    (tasks : List Task) : List ValidationError :=
  clientPassErrors [] clients
    ++ refPassErrors clients (tasks.map Task.TaskID)
    ++ workerPassErrors [] workers
    ++ taskPassErrors tasks

/-- The `Rule` record of `src/app/page.tsx`. -/
structure Rule where
  id : String
  type : String
  name : String
  description : String
  config : Json
  active : Bool

/-- The `priorityWeights` state record of the main component. -/
structure PriorityWeights where
  priorityLevel : Int
  taskFulfillment : Int
  fairness : Int
  workloadBalance : Int
  skillMatch : Int

/-- Outcome of the Gemini `generateContent` call as observed by
`searchData`: a successfully parsed JSON array, or any failure (missing
API key, HTTP error, unparseable response, or a non-array response). -/
inductive AIOutcome where
  | success (results : List Json) : AIOutcome
  | failure : AIOutcome

/-- The local fallback filter in `GeminiAI.searchData`: items whose
lowercased `JSON.stringify` contains the lowercased query, first 20. -/
def localFallbackSearch (query : String) (data : List Json) : List Json :=
  (data.filter (fun item =>
    strIncludes (jsToLower (jsonStringify item)) (jsToLower query))).take 20

/-- Method `GeminiAI.searchData` with the network call abstracted into an
`AIOutcome` argument.  A blank (trimmed-empty) query or empty data
short-circuits to no results; a successful AI response is truncated to
20 items with source `"ai"`; any failure falls back to the local
substring search with source `"local"`. -/
def searchData (query : String) (data : List Json) (ai : AIOutcome) :
    List Json × String :=
  if jsTrim query = "" ∨ data.isEmpty then ([], "local")
  else
    match ai with
    | .success results => (results.take 20, "ai")
    | .failure => (localFallbackSearch query data, "local")

/-- JavaScript `Array.prototype.join(',')`. -/
def joinComma : List String → String
  | [] => ""
  | [x] => x
  | x :: xs => x ++ "," ++ joinComma xs

/-- Serialization `JSON.stringify` of a numeric array. -/
def stringifyIntList (xs : List Int) : String :=
  jsonStringify (Json.arr (xs.map Json.num))

/-- A row of the exported `Clients` sheet: the spread client record
with `RequestedTaskIDs` joined by commas and `AttributesJSON`
stringified. -/
structure ClientRow where
  ClientID : String
  ClientName : String
  PriorityLevel : Option Int
  RequestedTaskIDs : String
  GroupTag : String
  AttributesJSON : String
  deriving DecidableEq

/-- A row of the exported `Workers` sheet: `Skills` joined by commas,
`AvailableSlots` stringified. -/
structure WorkerRow where
  WorkerID : String
  WorkerName : String
  Skills : String
  AvailableSlots : String
  MaxLoadPerPhase : Option Int
  WorkerGroup : String
  QualificationLevel : Option Int
  deriving DecidableEq

/-- A row of the exported `Tasks` sheet: `RequiredSkills` joined by
commas, `PreferredPhases` stringified. -/
structure TaskRow where
  TaskID : String
  TaskName : String
  Category : String
  Duration : Option Int
  RequiredSkills : String
  PreferredPhases : String
  MaxConcurrent : Option Int
  deriving DecidableEq

/-- Serialization of one client for the `Clients` sheet. -/
def clientToRow (c : Client) : ClientRow :=
  { ClientID := c.ClientID
    ClientName := c.ClientName
    PriorityLevel := c.PriorityLevel
    RequestedTaskIDs := joinComma c.RequestedTaskIDs
    GroupTag := c.GroupTag
    AttributesJSON := jsonStringify c.AttributesJSON }

/-- Serialization of one worker for the `Workers` sheet. -/
def workerToRow (w : Worker) : WorkerRow :=
  { WorkerID := w.WorkerID
    WorkerName := w.WorkerName
    Skills := joinComma w.Skills
    AvailableSlots := stringifyIntList w.AvailableSlots
    MaxLoadPerPhase := w.MaxLoadPerPhase
    WorkerGroup := w.WorkerGroup
    QualificationLevel := w.QualificationLevel }

/-- Serialization of one task for the `Tasks` sheet. -/
def taskToRow (t : Task) : TaskRow :=
  { TaskID := t.TaskID
    TaskName := t.TaskName
    Category := t.Category
    Duration := t.Duration
    RequiredSkills := joinComma t.RequiredSkills
    PreferredPhases := stringifyIntList t.PreferredPhases
    MaxConcurrent := t.MaxConcurrent }

/-- The workbook written by `exportData`: its three sheets. -/
structure Workbook where
  clientsSheet : List ClientRow
  workersSheet : List WorkerRow
  tasksSheet : List TaskRow
  deriving DecidableEq

/-- The rules-config download of `exportData`,
`JSON.stringify({ rules, priorityWeights })`, modelled structurally. -/
structure RulesConfig where
  rules : List Rule
  priorityWeights : PriorityWeights

/-- Everything `exportData` writes out. -/
structure ExportResult where
  workbook : Workbook
  rulesConfig : RulesConfig

/-- Function `exportData` from `src/app/page.tsx`: three sheets built by mapping
the serializers over the current records, plus the rules-config JSON. -/
def exportData (clients : List Client) (workers : List Worker) (tasks : List Task)
    (rules : List Rule) (priorityWeights : PriorityWeights) : ExportResult :=
  { workbook :=
      { clientsSheet := clients.map clientToRow
        workersSheet := workers.map workerToRow
        tasksSheet := tasks.map taskToRow }
    rulesConfig := { rules := rules, priorityWeights := priorityWeights } }

/-- The component state that validation and export read. -/
structure AppState where
  clients : List Client
  workers : List Worker
  tasks : List Task
  rules : List Rule
  priorityWeights : PriorityWeights

/-- The validation run over the component state
(`validateData(clients, workers, tasks)`). -/
def stateErrors (s : AppState) : List ValidationError :=
  validateData s.clients s.workers s.tasks

/-- The export run over the component state. -/
def stateExport (s : AppState) : ExportResult :=
  exportData s.clients s.workers s.tasks s.rules s.priorityWeights

/-- Function `calculateDataQuality` from `src/app/page.tsx`, with the three
counts it closes over as arguments; JavaScript number arithmetic is
modelled over `ℚ` and `Math.round` by `round`. -/
def calculateDataQuality (totalRecords errorCount warningCount : Nat) : Int :=
  if totalRecords = 0 then 100
  else
    let validRecords : ℚ := (totalRecords : ℚ) - (errorCount : ℚ)
    let baseQuality : ℚ := max 0 (validRecords / (totalRecords : ℚ) * 100)
    let warningPenalty : ℚ := (warningCount : ℚ) / (totalRecords : ℚ) * 10
    max 0 (min 100 (round (baseQuality - warningPenalty)))



/-! ## Helper lemmas about the validation passes -/

/-- Membership in a conditional singleton produced by one `errors.push`. -/
lemma mem_ite_singleton {α : Type} {e x : α} {b : Bool} :
    (e ∈ if b then [x] else ([] : List α)) ↔ b = true ∧ e = x := by
  cases b <;> simp

/-- Two errors with different `field`s differ. -/
lemma ne_of_field_ne {e1 e2 : ValidationError} (h : e1.field ≠ e2.field) : e1 ≠ e2 :=
  fun he => h (congrArg ValidationError.field he)

/-- A common first component of a string append cancels. -/
lemma strAppend_cancel_left {p a b : String} (h : p ++ a = p ++ b) : a = b := by
  have hd := congrArg String.data h
  rw [String.data_append, String.data_append] at hd
  exact String.ext (List.append_cancel_left hd)

/-- Every error of the client pass is a duplicate-ID error or a
priority error of a listed client. -/
lemma clientPass_cases {e : ValidationError} {cs : List Client} :
    ∀ {seen : List String}, e ∈ clientPassErrors seen cs →
      (∃ cid, e = dupClientError cid) ∨
      ∃ c ∈ cs, (jsLt c.PriorityLevel 1 || jsGt c.PriorityLevel 5) = true ∧ e = priorityError c := by
  induction cs with
  | nil => intro seen h; simp [clientPassErrors] at h
  | cons c rest ih =>
    intro seen h
    simp only [clientPassErrors, List.append_assoc, List.mem_append] at h
    rcases h with h | h | h
    · rw [mem_ite_singleton] at h
      exact Or.inl ⟨c.ClientID, h.2⟩
    · rw [mem_ite_singleton] at h
      exact Or.inr ⟨c, List.mem_cons_self c rest, h.1, h.2⟩
    · rcases ih h with h' | ⟨c', hc', hbad, he⟩
      · exact Or.inl h'
      · exact Or.inr ⟨c', List.mem_cons_of_mem c hc', hbad, he⟩

/-- A listed client with an out-of-range priority always contributes
its priority error, whatever IDs were already seen. -/
lemma priorityError_mem_clientPass {cs : List Client} {c : Client} (hc : c ∈ cs)
    (hbad : (jsLt c.PriorityLevel 1 || jsGt c.PriorityLevel 5) = true) :
    ∀ seen, priorityError c ∈ clientPassErrors seen cs := by
  induction cs with
  | nil => cases hc
  | cons c0 rest ih =>
    intro seen
    simp only [clientPassErrors, List.append_assoc, List.mem_append]
    rcases List.mem_cons.mp hc with rfl | h
    · exact Or.inr (Or.inl (mem_ite_singleton.mpr ⟨hbad, rfl⟩))
    · exact Or.inr (Or.inr (ih h _))

/-- Every error of the worker pass is a duplicate-ID error or a
qualification error of a listed worker. -/
lemma workerPass_cases {e : ValidationError} {ws : List Worker} :
    ∀ {seen : List String}, e ∈ workerPassErrors seen ws →
      (∃ wid, e = dupWorkerError wid) ∨
      ∃ w ∈ ws, (jsLt w.QualificationLevel 1 || jsGt w.QualificationLevel 5) = true ∧ e = qualError w := by
  induction ws with
  | nil => intro seen h; simp [workerPassErrors] at h
  | cons w rest ih =>
    intro seen h
    simp only [workerPassErrors, List.append_assoc, List.mem_append] at h
    rcases h with h | h | h
    · rw [mem_ite_singleton] at h
      exact Or.inl ⟨w.WorkerID, h.2⟩
    · rw [mem_ite_singleton] at h
      exact Or.inr ⟨w, List.mem_cons_self w rest, h.1, h.2⟩
    · rcases ih h with h' | ⟨w', hw', hbad, he⟩
      · exact Or.inl h'
      · exact Or.inr ⟨w', List.mem_cons_of_mem w hw', hbad, he⟩

/-- A listed worker with an out-of-range qualification always
contributes its qualification error. -/
lemma qualError_mem_workerPass {ws : List Worker} {w : Worker} (hw : w ∈ ws)
    (hbad : (jsLt w.QualificationLevel 1 || jsGt w.QualificationLevel 5) = true) :
    ∀ seen, qualError w ∈ workerPassErrors seen ws := by
  induction ws with
  | nil => cases hw
  | cons w0 rest ih =>
    intro seen
    simp only [workerPassErrors, List.append_assoc, List.mem_append]
    rcases List.mem_cons.mp hw with rfl | h
    · exact Or.inr (Or.inl (mem_ite_singleton.mpr ⟨hbad, rfl⟩))
    · exact Or.inr (Or.inr (ih h _))

/-- The task pass contains exactly the duration errors of the
short-duration tasks. -/
lemma taskPass_mem {ts : List Task} {e : ValidationError} :
    e ∈ taskPassErrors ts ↔ ∃ t ∈ ts, jsLt t.Duration 1 = true ∧ e = durationError t := by
  simp only [taskPassErrors, List.mem_flatMap]
  constructor
  · rintro ⟨t, ht, he⟩
    rw [mem_ite_singleton] at he
    exact ⟨t, ht, he.1, he.2⟩
  · rintro ⟨t, ht, hb, rfl⟩
    exact ⟨t, ht, mem_ite_singleton.mpr ⟨hb, rfl⟩⟩

/-- The reference pass contains exactly the unknown-task errors for
requested IDs missing from the task-ID list. -/
lemma refPass_mem {cs : List Client} {tids : List String} {e : ValidationError} :
    e ∈ refPassErrors cs tids ↔
      ∃ c ∈ cs, ∃ tid ∈ c.RequestedTaskIDs,
        tid ∉ tids ∧ e = unknownTaskError c.ClientID tid := by
  simp only [refPassErrors, List.mem_flatMap, clientRefErrors, List.mem_map, List.mem_filter]
  constructor
  · rintro ⟨c, hc, tid, ⟨htid, hcon⟩, rfl⟩
    refine ⟨c, hc, tid, htid, ?_, rfl⟩
    simpa using hcon
  · rintro ⟨c, hc, tid, htid, hcon, rfl⟩
    exact ⟨c, hc, tid, ⟨htid, by simpa using hcon⟩, rfl⟩

/-! ## The claims -/

/-- C8: duplicate task IDs are never flagged: whatever the three lists
are (tasks with repeated `TaskID`s included), `validateData` emits no
error whose `field` is `TaskID`, and every error of the task pass is a
`Duration` error. -/
theorem tasks_never_flagged_duplicate (cs : List Client) (ws : List Worker) (ts : List Task) :
    (∀ e ∈ validateData cs ws ts, e.field ≠ some "TaskID") ∧
    (∀ e ∈ taskPassErrors ts, e.field = some "Duration") := by
  constructor
  · intro e he
    simp only [validateData, List.append_assoc, List.mem_append] at he
    rcases he with he | he | he | he
    · rcases clientPass_cases he with ⟨cid, rfl⟩ | ⟨c, _, _, rfl⟩ <;>
        simp [dupClientError, priorityError]
    · rcases refPass_mem.mp he with ⟨c, _, tid, _, _, rfl⟩
      simp [unknownTaskError]
    · rcases workerPass_cases he with ⟨wid, rfl⟩ | ⟨w, _, _, rfl⟩ <;>
        simp [dupWorkerError, qualError]
    · rcases taskPass_mem.mp he with ⟨t, _, _, rfl⟩
      simp [durationError]
  · intro e he
    rcases taskPass_mem.mp he with ⟨t, _, _, rfl⟩
    rfl

/-- Witness for C8 at a task list with a repeated `TaskID` and a bad
duration: the emitted duration error is not a `TaskID` error. -/
theorem tasks_never_flagged_duplicate_witness :
    durationError ⟨"T1", "N", "G", some 0, [], [], some 1⟩ ∈
        validateData [] []
          [⟨"T1", "N", "G", some 0, [], [], some 1⟩, ⟨"T1", "N", "G", some 0, [], [], some 1⟩] ∧
      (durationError ⟨"T1", "N", "G", some 0, [], [], some 1⟩).field ≠ some "TaskID" :=
  ⟨by decide, (tasks_never_flagged_duplicate [] []
      [⟨"T1", "N", "G", some 0, [], [], some 1⟩, ⟨"T1", "N", "G", some 0, [], [], some 1⟩]).1
    _ (by decide)⟩

/-- C3: numeric range checks.  An error on field `PriorityLevel` is in
`validateData`'s output exactly when it is the priority error of a
listed client whose level is below 1 or above 5 (JavaScript
comparison, so a `NaN` level is never flagged); likewise for
`QualificationLevel` on workers (1..5) and `Duration` on tasks
(at least 1). -/
theorem range_checks (cs : List Client) (ws : List Worker) (ts : List Task)
    (e : ValidationError) :
    ((e ∈ validateData cs ws ts ∧ e.field = some "PriorityLevel") ↔
      ∃ c ∈ cs, (jsLt c.PriorityLevel 1 || jsGt c.PriorityLevel 5) = true ∧ e = priorityError c) ∧
    ((e ∈ validateData cs ws ts ∧ e.field = some "QualificationLevel") ↔
      ∃ w ∈ ws, (jsLt w.QualificationLevel 1 || jsGt w.QualificationLevel 5) = true ∧ e = qualError w) ∧
    ((e ∈ validateData cs ws ts ∧ e.field = some "Duration") ↔
      ∃ t ∈ ts, jsLt t.Duration 1 = true ∧ e = durationError t) := by
  refine ⟨⟨?_, ?_⟩, ⟨?_, ?_⟩, ⟨?_, ?_⟩⟩
  · rintro ⟨he, hf⟩
    simp only [validateData, List.append_assoc, List.mem_append] at he
    rcases he with he | he | he | he
    · rcases clientPass_cases he with ⟨cid, rfl⟩ | ⟨c, hc, hbad, rfl⟩
      · simp [dupClientError] at hf
      · exact ⟨c, hc, hbad, rfl⟩
    · rcases refPass_mem.mp he with ⟨c, _, tid, _, _, rfl⟩
      simp [unknownTaskError] at hf
    · rcases workerPass_cases he with ⟨wid, rfl⟩ | ⟨w, _, _, rfl⟩
      · simp [dupWorkerError] at hf
      · simp [qualError] at hf
    · rcases taskPass_mem.mp he with ⟨t, _, _, rfl⟩
      simp [durationError] at hf
  · rintro ⟨c, hc, hbad, rfl⟩
    refine ⟨?_, rfl⟩
    simp only [validateData, List.append_assoc, List.mem_append]
    exact Or.inl (priorityError_mem_clientPass hc hbad [])
  · rintro ⟨he, hf⟩
    simp only [validateData, List.append_assoc, List.mem_append] at he
    rcases he with he | he | he | he
    · rcases clientPass_cases he with ⟨cid, rfl⟩ | ⟨c, _, _, rfl⟩
      · simp [dupClientError] at hf
      · simp [priorityError] at hf
    · rcases refPass_mem.mp he with ⟨c, _, tid, _, _, rfl⟩
      simp [unknownTaskError] at hf
    · rcases workerPass_cases he with ⟨wid, rfl⟩ | ⟨w, hw, hbad, rfl⟩
      · simp [dupWorkerError] at hf
      · exact ⟨w, hw, hbad, rfl⟩
    · rcases taskPass_mem.mp he with ⟨t, _, _, rfl⟩
      simp [durationError] at hf
  · rintro ⟨w, hw, hbad, rfl⟩
    refine ⟨?_, rfl⟩
    simp only [validateData, List.append_assoc, List.mem_append]
    exact Or.inr (Or.inr (Or.inl (qualError_mem_workerPass hw hbad [])))
  · rintro ⟨he, hf⟩
    simp only [validateData, List.append_assoc, List.mem_append] at he
    rcases he with he | he | he | he
    · rcases clientPass_cases he with ⟨cid, rfl⟩ | ⟨c, _, _, rfl⟩
      · simp [dupClientError] at hf
      · simp [priorityError] at hf
    · rcases refPass_mem.mp he with ⟨c, _, tid, _, _, rfl⟩
      simp [unknownTaskError] at hf
    · rcases workerPass_cases he with ⟨wid, rfl⟩ | ⟨w, _, _, rfl⟩
      · simp [dupWorkerError] at hf
      · simp [qualError] at hf
    · rcases taskPass_mem.mp he with ⟨t, ht, hb, rfl⟩
      exact ⟨t, ht, hb, rfl⟩
  · rintro ⟨t, ht, hb, rfl⟩
    refine ⟨?_, rfl⟩
    simp only [validateData, List.append_assoc, List.mem_append]
    exact Or.inr (Or.inr (Or.inr (taskPass_mem.mpr ⟨t, ht, hb, rfl⟩)))

/-- Witness for C3: a client with priority 9, a worker with
qualification 0 and a task with duration 0 each receive their range
error. -/
theorem range_checks_witness :
    priorityError ⟨"C1", "N", some 9, [], "G", Json.obj []⟩ ∈
        validateData [⟨"C1", "N", some 9, [], "G", Json.obj []⟩]
          [⟨"W1", "N", [], [], some 1, "G", some 0⟩]
          [⟨"T1", "N", "G", some 0, [], [], some 1⟩] ∧
      qualError ⟨"W1", "N", [], [], some 1, "G", some 0⟩ ∈
        validateData [⟨"C1", "N", some 9, [], "G", Json.obj []⟩]
          [⟨"W1", "N", [], [], some 1, "G", some 0⟩]
          [⟨"T1", "N", "G", some 0, [], [], some 1⟩] ∧
      durationError ⟨"T1", "N", "G", some 0, [], [], some 1⟩ ∈
        validateData [⟨"C1", "N", some 9, [], "G", Json.obj []⟩]
          [⟨"W1", "N", [], [], some 1, "G", some 0⟩]
          [⟨"T1", "N", "G", some 0, [], [], some 1⟩] :=
  ⟨((range_checks [⟨"C1", "N", some 9, [], "G", Json.obj []⟩]
        [⟨"W1", "N", [], [], some 1, "G", some 0⟩]
        [⟨"T1", "N", "G", some 0, [], [], some 1⟩]
        (priorityError ⟨"C1", "N", some 9, [], "G", Json.obj []⟩)).1.mpr
      ⟨_, List.mem_cons_self _ _, by decide, rfl⟩).1,
   ((range_checks [⟨"C1", "N", some 9, [], "G", Json.obj []⟩]
        [⟨"W1", "N", [], [], some 1, "G", some 0⟩]
        [⟨"T1", "N", "G", some 0, [], [], some 1⟩]
        (qualError ⟨"W1", "N", [], [], some 1, "G", some 0⟩)).2.1.mpr
      ⟨_, List.mem_cons_self _ _, by decide, rfl⟩).1,
   ((range_checks [⟨"C1", "N", some 9, [], "G", Json.obj []⟩]
        [⟨"W1", "N", [], [], some 1, "G", some 0⟩]
        [⟨"T1", "N", "G", some 0, [], [], some 1⟩]
        (durationError ⟨"T1", "N", "G", some 0, [], [], some 1⟩)).2.2.mpr
      ⟨_, List.mem_cons_self _ _, by decide, rfl⟩).1⟩

/-- C1: referential integrity between clients and tasks.  The
unknown-task error for `(cid, tid)` is emitted exactly when some
listed client has ID `cid` and requests `tid` while no task carries
the ID `tid`; and when every requested task ID is covered by the task
list, no error on the `RequestedTaskIDs` field is produced at all. -/
theorem referential_integrity (cs : List Client) (ws : List Worker) (ts : List Task)
    (cid tid : String) :
    (unknownTaskError cid tid ∈ validateData cs ws ts ↔
      (∃ c ∈ cs, c.ClientID = cid ∧ tid ∈ c.RequestedTaskIDs) ∧ tid ∉ ts.map Task.TaskID) ∧
    ((∀ c ∈ cs, ∀ t ∈ c.RequestedTaskIDs, t ∈ ts.map Task.TaskID) →
      ∀ e ∈ validateData cs ws ts, e.field ≠ some "RequestedTaskIDs") := by
  constructor
  · constructor
    · intro he
      simp only [validateData, List.append_assoc, List.mem_append] at he
      rcases he with he | he | he | he
      · rcases clientPass_cases he with ⟨cid', heq⟩ | ⟨c, _, _, heq⟩ <;>
        · have hfields := congrArg ValidationError.field heq
          simp [unknownTaskError, dupClientError, priorityError] at hfields
      · rcases refPass_mem.mp he with ⟨c, hc, tid', htid', hnot, heq⟩
        have hcid : cid = c.ClientID := congrArg ValidationError.entityId heq
        have htid : tid = tid' := strAppend_cancel_left (congrArg ValidationError.message heq)
        subst hcid
        subst htid
        exact ⟨⟨c, hc, rfl, htid'⟩, hnot⟩
      · rcases workerPass_cases he with ⟨wid, heq⟩ | ⟨w, _, _, heq⟩ <;>
        · have hfields := congrArg ValidationError.field heq
          simp [unknownTaskError, dupWorkerError, qualError] at hfields
      · rcases taskPass_mem.mp he with ⟨t, _, _, heq⟩
        have hfields := congrArg ValidationError.field heq
        simp [unknownTaskError, durationError] at hfields
    · rintro ⟨⟨c, hc, hcid, htid⟩, hnot⟩
      simp only [validateData, List.append_assoc, List.mem_append]
      exact Or.inr (Or.inl (refPass_mem.mpr ⟨c, hc, tid, htid, hnot, by rw [hcid]⟩))
  · intro hall e he hf
    simp only [validateData, List.append_assoc, List.mem_append] at he
    rcases he with he | he | he | he
    · rcases clientPass_cases he with ⟨cid', rfl⟩ | ⟨c, _, _, rfl⟩ <;>
        simp [dupClientError, priorityError] at hf
    · rcases refPass_mem.mp he with ⟨c, hc, tid', htid', hnot, rfl⟩
      exact hnot (hall c hc tid' htid')
    · rcases workerPass_cases he with ⟨wid, rfl⟩ | ⟨w, _, _, rfl⟩ <;>
        simp [dupWorkerError, qualError] at hf
    · rcases taskPass_mem.mp he with ⟨t, _, _, rfl⟩
      simp [durationError] at hf

/-- Witness for C1: a client requesting the absent task `T9` next to a
task list that only defines `T1` receives the unknown-task error. -/
theorem referential_integrity_witness :
    unknownTaskError "C1" "T9" ∈
      validateData [⟨"C1", "N", some 1, ["T9"], "G", Json.obj []⟩] []
        [⟨"T1", "N", "G", some 1, [], [], some 1⟩] :=
  (referential_integrity [⟨"C1", "N", some 1, ["T9"], "G", Json.obj []⟩] []
      [⟨"T1", "N", "G", some 1, [], [], some 1⟩] "C1" "T9").1.mpr
    ⟨⟨_, List.mem_cons_self _ _, rfl, by decide⟩, by decide⟩

/-- Counting occurrences inside one conditional singleton block. -/
lemma count_ite_singleton {α : Type} [BEq α] [LawfulBEq α] {x y : α} {p : Prop}
    [Decidable p] :
    (if p then [y] else ([] : List α)).count x =
      if p then (if y == x then 1 else 0) else 0 := by
  split <;> simp [List.count_cons]

/-- Duplicate-client errors are determined by the client ID. -/
lemma dupClientError_eq_iff {a b : String} : dupClientError a = dupClientError b ↔ a = b :=
  ⟨fun h => congrArg ValidationError.entityId h, fun h => by rw [h]⟩

/-- Duplicate-worker errors are determined by the worker ID. -/
lemma dupWorkerError_eq_iff {a b : String} : dupWorkerError a = dupWorkerError b ↔ a = b :=
  ⟨fun h => congrArg ValidationError.entityId h, fun h => by rw [h]⟩

/-- How many duplicate-client errors for `cid` the client pass emits:
one per occurrence of `cid`, except that the first occurrence is free
when `cid` was not already seen. -/
lemma count_dupClient (cid : String) (cs : List Client) :
    ∀ seen : List String,
      (clientPassErrors seen cs).count (dupClientError cid) =
        if cid ∈ seen then (cs.map Client.ClientID).count cid
        else (cs.map Client.ClientID).count cid - 1 := by
  induction cs with
  | nil => intro seen; simp [clientPassErrors]
  | cons c rest ih =>
    intro seen
    have hne : priorityError c = dupClientError cid ↔ False := by
      constructor
      · intro h
        have := congrArg ValidationError.field h
        simp [priorityError, dupClientError] at this
      · exact False.elim
    simp only [clientPassErrors, List.count_append, count_ite_singleton,
      dupClientError_eq_iff, hne, ih (c.ClientID :: seen), List.map_cons,
      List.count_cons, beq_iff_eq, List.mem_cons, List.elem_iff]
    rcases eq_or_ne cid c.ClientID with h1 | h1
    · subst h1
      by_cases h2 : c.ClientID ∈ seen <;> simp [h2] <;> omega
    · by_cases h2 : cid ∈ seen <;> simp [h1, Ne.symm h1, h2] <;> omega

/-- The task-reference pass emits no duplicate-client error. -/
lemma count_dupClient_refPass (cid : String) (cs : List Client) (tids : List String) :
    (refPassErrors cs tids).count (dupClientError cid) = 0 := by
  rw [List.count_eq_zero]
  intro h
  rcases refPass_mem.mp h with ⟨c, _, tid, _, _, heq⟩
  have := congrArg ValidationError.field heq
  simp [dupClientError, unknownTaskError] at this

/-- The worker pass emits no duplicate-client error. -/
lemma count_dupClient_workerPass (cid : String) (ws : List Worker) (seen : List String) :
    (workerPassErrors seen ws).count (dupClientError cid) = 0 := by
  rw [List.count_eq_zero]
  intro h
  rcases workerPass_cases h with ⟨wid, heq⟩ | ⟨w, _, _, heq⟩ <;>
  · have := congrArg ValidationError.field heq
    simp [dupClientError, dupWorkerError, qualError] at this

/-- The task pass emits no duplicate-client error. -/
lemma count_dupClient_taskPass (cid : String) (ts : List Task) :
    (taskPassErrors ts).count (dupClientError cid) = 0 := by
  rw [List.count_eq_zero]
  intro h
  rcases taskPass_mem.mp h with ⟨t, _, _, heq⟩
  have := congrArg ValidationError.field heq
  simp [dupClientError, durationError] at this

/-- Worker-pass analogue of `count_dupClient`. -/
lemma count_dupWorker (wid : String) (ws : List Worker) :
    ∀ seen : List String,
      (workerPassErrors seen ws).count (dupWorkerError wid) =
        if wid ∈ seen then (ws.map Worker.WorkerID).count wid
        else (ws.map Worker.WorkerID).count wid - 1 := by
  induction ws with
  | nil => intro seen; simp [workerPassErrors]
  | cons w rest ih =>
    intro seen
    have hne : qualError w = dupWorkerError wid ↔ False := by
      constructor
      · intro h
        have := congrArg ValidationError.field h
        simp [qualError, dupWorkerError] at this
      · exact False.elim
    simp only [workerPassErrors, List.count_append, count_ite_singleton,
      dupWorkerError_eq_iff, hne, ih (w.WorkerID :: seen), List.map_cons,
      List.count_cons, beq_iff_eq, List.mem_cons, List.elem_iff]
    rcases eq_or_ne wid w.WorkerID with h1 | h1
    · subst h1
      by_cases h2 : w.WorkerID ∈ seen <;> simp [h2] <;> omega
    · by_cases h2 : wid ∈ seen <;> simp [h1, Ne.symm h1, h2] <;> omega

/-- The client pass emits no duplicate-worker error. -/
lemma count_dupWorker_clientPass (wid : String) (cs : List Client) (seen : List String) :
    (clientPassErrors seen cs).count (dupWorkerError wid) = 0 := by
  rw [List.count_eq_zero]
  intro h
  rcases clientPass_cases h with ⟨cid, heq⟩ | ⟨c, _, _, heq⟩ <;>
  · have := congrArg ValidationError.field heq
    simp [dupWorkerError, dupClientError, priorityError] at this

/-- The task-reference pass emits no duplicate-worker error. -/
lemma count_dupWorker_refPass (wid : String) (cs : List Client) (tids : List String) :
    (refPassErrors cs tids).count (dupWorkerError wid) = 0 := by
  rw [List.count_eq_zero]
  intro h
  rcases refPass_mem.mp h with ⟨c, _, tid, _, _, heq⟩
  have := congrArg ValidationError.field heq
  simp [dupWorkerError, unknownTaskError] at this

/-- The task pass emits no duplicate-worker error. -/
lemma count_dupWorker_taskPass (wid : String) (ts : List Task) :
    (taskPassErrors ts).count (dupWorkerError wid) = 0 := by
  rw [List.count_eq_zero]
  intro h
  rcases taskPass_mem.mp h with ⟨t, _, _, heq⟩
  have := congrArg ValidationError.field heq
  simp [dupWorkerError, durationError] at this

/-- C2: duplicate-ID detection.  For any ID, the number of
duplicate-client (resp. duplicate-worker) errors in `validateData`'s
output is the number of its occurrences among the `ClientID`s
(resp. `WorkerID`s) minus one — i.e. one error per occurrence with an
earlier equal ID — and when all client IDs and worker IDs are pairwise
distinct, no error on the `ClientID` or `WorkerID` field is emitted. -/
theorem duplicate_id_detection (cs : List Client) (ws : List Worker) (ts : List Task)
    (cid wid : String) :
    (validateData cs ws ts).count (dupClientError cid) =
        (cs.map Client.ClientID).count cid - 1 ∧
    (validateData cs ws ts).count (dupWorkerError wid) =
        (ws.map Worker.WorkerID).count wid - 1 ∧
    ((cs.map Client.ClientID).Nodup → (ws.map Worker.WorkerID).Nodup →
      ∀ e ∈ validateData cs ws ts, e.field ≠ some "ClientID" ∧ e.field ≠ some "WorkerID") := by
  refine ⟨?_, ?_, ?_⟩
  · simp only [validateData, List.count_append]
    rw [count_dupClient cid cs [], count_dupClient_refPass, count_dupClient_workerPass,
      count_dupClient_taskPass]
    simp
  · simp only [validateData, List.count_append]
    rw [count_dupWorker wid ws [], count_dupWorker_clientPass, count_dupWorker_refPass,
      count_dupWorker_taskPass]
    simp
  · intro hnc hnw e he
    constructor
    · intro hf
      simp only [validateData, List.append_assoc, List.mem_append] at he
      rcases he with he | he | he | he
      · rcases clientPass_cases he with ⟨cid', rfl⟩ | ⟨c, _, _, rfl⟩
        · have h1 : 0 < (clientPassErrors ([] : List String) cs).count (dupClientError cid') :=
            List.count_pos_iff.mpr he
          rw [count_dupClient cid' cs []] at h1
          simp only [List.not_mem_nil, if_false] at h1
          have h2 := List.nodup_iff_count_le_one.mp hnc cid'
          omega
        · simp [priorityError] at hf
      · rcases refPass_mem.mp he with ⟨c, _, tid, _, _, rfl⟩
        simp [unknownTaskError] at hf
      · rcases workerPass_cases he with ⟨wid', rfl⟩ | ⟨w, _, _, rfl⟩
        · simp [dupWorkerError] at hf
        · simp [qualError] at hf
      · rcases taskPass_mem.mp he with ⟨t, _, _, rfl⟩
        simp [durationError] at hf
    · intro hf
      simp only [validateData, List.append_assoc, List.mem_append] at he
      rcases he with he | he | he | he
      · rcases clientPass_cases he with ⟨cid', rfl⟩ | ⟨c, _, _, rfl⟩
        · simp [dupClientError] at hf
        · simp [priorityError] at hf
      · rcases refPass_mem.mp he with ⟨c, _, tid, _, _, rfl⟩
        simp [unknownTaskError] at hf
      · rcases workerPass_cases he with ⟨wid', rfl⟩ | ⟨w, _, _, rfl⟩
        · have h1 : 0 < (workerPassErrors ([] : List String) ws).count (dupWorkerError wid') :=
            List.count_pos_iff.mpr he
          rw [count_dupWorker wid' ws []] at h1
          simp only [List.not_mem_nil, if_false] at h1
          have h2 := List.nodup_iff_count_le_one.mp hnw wid'
          omega
        · simp [qualError] at hf
      · rcases taskPass_mem.mp he with ⟨t, _, _, rfl⟩
        simp [durationError] at hf

/-- Witness for C2: on a duplicated client list the duplicate error is
emitted once, and on distinct IDs the only error present (a priority
error) is on neither ID field. -/
theorem duplicate_id_detection_witness :
    (validateData
        [⟨"C1", "N", some 1, [], "G", Json.obj []⟩, ⟨"C1", "N", some 1, [], "G", Json.obj []⟩]
        [] []).count (dupClientError "C1") =
      ((["C1", "C1"] : List String).count "C1" - 1) ∧
    ((priorityError ⟨"C1", "N", some 9, [], "G", Json.obj []⟩).field ≠ some "ClientID" ∧
      (priorityError ⟨"C1", "N", some 9, [], "G", Json.obj []⟩).field ≠ some "WorkerID") :=
  ⟨(duplicate_id_detection
      [⟨"C1", "N", some 1, [], "G", Json.obj []⟩, ⟨"C1", "N", some 1, [], "G", Json.obj []⟩]
      [] [] "C1" "w").1,
   (duplicate_id_detection [⟨"C1", "N", some 9, [], "G", Json.obj []⟩] [] [] "c" "w").2.2
      (by decide) (by decide) _ (by decide)⟩

/-- C10: the data-quality score is 100 on an empty dataset and always
an integer clamped to 0..100, whatever the record, error and warning
counts. -/
theorem dataQuality_bounds (t e w : Nat) :
    calculateDataQuality 0 e w = 100 ∧
    0 ≤ calculateDataQuality t e w ∧ calculateDataQuality t e w ≤ 100 := by
  refine ⟨rfl, ?_, ?_⟩
  · simp only [calculateDataQuality]
    split
    · norm_num
    · exact le_max_left 0 _
  · simp only [calculateDataQuality]
    split
    · norm_num
    · exact max_le (by norm_num) (min_le_left _ _)

/-- C6: export shape.  Each sheet of the exported workbook has exactly
one row per current record, in order, with the scalar fields copied
unchanged, `RequestedTaskIDs`/`Skills`/`RequiredSkills` joined with
commas, and `AvailableSlots`/`PreferredPhases`/`AttributesJSON`
JSON-stringified. -/
theorem export_shape (cs : List Client) (ws : List Worker) (ts : List Task)
    (rules : List Rule) (pw : PriorityWeights) :
    List.Forall₂ (fun (c : Client) (row : ClientRow) =>
        row.ClientID = c.ClientID ∧ row.ClientName = c.ClientName ∧
        row.PriorityLevel = c.PriorityLevel ∧
        row.RequestedTaskIDs = joinComma c.RequestedTaskIDs ∧
        row.GroupTag = c.GroupTag ∧
        row.AttributesJSON = jsonStringify c.AttributesJSON)
      cs (exportData cs ws ts rules pw).workbook.clientsSheet ∧
    List.Forall₂ (fun (w : Worker) (row : WorkerRow) =>
        row.WorkerID = w.WorkerID ∧ row.WorkerName = w.WorkerName ∧
        row.Skills = joinComma w.Skills ∧
        row.AvailableSlots = stringifyIntList w.AvailableSlots ∧
        row.MaxLoadPerPhase = w.MaxLoadPerPhase ∧
        row.WorkerGroup = w.WorkerGroup ∧
        row.QualificationLevel = w.QualificationLevel)
      ws (exportData cs ws ts rules pw).workbook.workersSheet ∧
    List.Forall₂ (fun (t : Task) (row : TaskRow) =>
        row.TaskID = t.TaskID ∧ row.TaskName = t.TaskName ∧
        row.Category = t.Category ∧ row.Duration = t.Duration ∧
        row.RequiredSkills = joinComma t.RequiredSkills ∧
        row.PreferredPhases = stringifyIntList t.PreferredPhases ∧
        row.MaxConcurrent = t.MaxConcurrent)
      ts (exportData cs ws ts rules pw).workbook.tasksSheet := by
  refine ⟨?_, ?_, ?_⟩ <;>
  · simp only [exportData]
    rw [List.forall₂_map_right_iff, List.forall₂_same]
    intro x hx
    simp [clientToRow, workerToRow, taskToRow]

/-- C5: rules and priority weights are inert.  Two states with the same
records but arbitrary rules and weights produce identical validation
errors and identical workbook sheets, while the exported rules config
is exactly the state's rules and weights. -/
theorem rules_and_weights_inert (s1 s2 : AppState)
    (hc : s1.clients = s2.clients) (hw : s1.workers = s2.workers)
    (ht : s1.tasks = s2.tasks) :
    stateErrors s1 = stateErrors s2 ∧
    (stateExport s1).workbook = (stateExport s2).workbook ∧
    (stateExport s1).rulesConfig.rules = s1.rules ∧
    (stateExport s1).rulesConfig.priorityWeights = s1.priorityWeights := by
  refine ⟨?_, ?_, rfl, rfl⟩
  · simp only [stateErrors, hc, hw, ht]
  · simp only [stateExport, exportData, hc, hw, ht]

/-- Witness for C5 at two concrete states that differ only in rules and
weights. -/
theorem rules_and_weights_inert_witness :
    stateErrors ⟨[⟨"C1", "N", some 1, [], "G", Json.obj []⟩], [], [], [],
        ⟨30, 25, 20, 15, 10⟩⟩ =
      stateErrors ⟨[⟨"C1", "N", some 1, [], "G", Json.obj []⟩], [], [],
        [⟨"rule-1", "coRun", "n", "d", Json.obj [], true⟩], ⟨1, 2, 3, 4, 5⟩⟩ ∧
    (stateExport ⟨[⟨"C1", "N", some 1, [], "G", Json.obj []⟩], [], [], [],
        ⟨30, 25, 20, 15, 10⟩⟩).workbook =
      (stateExport ⟨[⟨"C1", "N", some 1, [], "G", Json.obj []⟩], [], [],
        [⟨"rule-1", "coRun", "n", "d", Json.obj [], true⟩], ⟨1, 2, 3, 4, 5⟩⟩).workbook ∧
    (stateExport ⟨[⟨"C1", "N", some 1, [], "G", Json.obj []⟩], [], [], [],
        ⟨30, 25, 20, 15, 10⟩⟩).rulesConfig.rules = [] ∧
    (stateExport ⟨[⟨"C1", "N", some 1, [], "G", Json.obj []⟩], [], [], [],
        ⟨30, 25, 20, 15, 10⟩⟩).rulesConfig.priorityWeights = ⟨30, 25, 20, 15, 10⟩ :=
  rules_and_weights_inert
    ⟨[⟨"C1", "N", some 1, [], "G", Json.obj []⟩], [], [], [], ⟨30, 25, 20, 15, 10⟩⟩
    ⟨[⟨"C1", "N", some 1, [], "G", Json.obj []⟩], [], [],
      [⟨"rule-1", "coRun", "n", "d", Json.obj [], true⟩], ⟨1, 2, 3, 4, 5⟩⟩
    rfl rfl rfl

/-- C4 counterexample: with a blank query and a nonempty dataset, a
failed AI call (e.g. missing API key) returns no results, while the
substring filter of the claim would keep every item — the empty query
is a substring of every serialization. -/
theorem searchData_blank_query_counterexample :
    searchData "" [Json.num 1] AIOutcome.failure ≠
      (localFallbackSearch "" [Json.num 1], "local") := by
  intro h
  have h1 : ([] : List Json) = [Json.num 1] := congrArg Prod.fst h
  exact List.noConfusion h1

/-- C4 (amended): for a query whose trimmed form is nonempty, a failed
AI call makes `searchData` return exactly the items whose lowercased
JSON serialization contains the lowercased query, truncated to 20,
with source `"local"`; for a blank trimmed query it returns no results
with source `"local"`. -/
theorem searchData_failure_fallback (q : String) (data : List Json) :
    (jsTrim q ≠ "" →
      searchData q data AIOutcome.failure = (localFallbackSearch q data, "local")) ∧
    (jsTrim q = "" → searchData q data AIOutcome.failure = ([], "local")) := by
  constructor
  · intro h
    rcases data with _ | ⟨d, ds⟩
    · simp [searchData, localFallbackSearch]
    · have hcond : ¬(jsTrim q = "" ∨ (List.isEmpty (d :: ds)) = true) := by
        rintro (h' | h')
        · exact h h'
        · simp at h'
      unfold searchData
      rw [if_neg hcond]
  · intro h
    simp [searchData, h]

/-- Witness for C4's amended claim at a one-character query. -/
theorem searchData_failure_fallback_witness :
    searchData "x" [Json.num 1] AIOutcome.failure =
      (localFallbackSearch "x" [Json.num 1], "local") :=
  (searchData_failure_fallback "x" [Json.num 1]).1 (by decide)

/-- C9: phase parsing.  An input containing `-` whose first two parts
parse as integers `a` and `b` yields the consecutive phases
`a, a+1, ..., b` (empty when `b < a`); an input without `-` is
delegated to `parseSlots`; `parseSlots` returns the `JSON.parse`d
array on bracketed input and otherwise the comma-separated entries
with non-numeric ones removed. -/
theorem phase_parsing (s : String) (a b : Int) :
    (strHasChar s '-' = true →
      ((jsSplit s '-').map (fun t => jsParseInt (jsTrim t))).getD 0 none = some a →
      ((jsSplit s '-').map (fun t => jsParseInt (jsTrim t))).getD 1 none = some b →
      ((parsePhases s).length = (b - a + 1).toNat ∧
        ∀ i, i < (parsePhases s).length → (parsePhases s).getD i 0 = a + i) ∧
      (b < a → parsePhases s = [])) ∧
    (strHasChar s '-' = false → parsePhases s = parseSlots s) ∧
    (∀ items xs, (jsStartsWith s "[" && jsEndsWith s "]") = true →
      jsonParse s = some (Json.arr items) → jsonToIntList items = some xs →
      parseSlots s = xs) ∧
    ((jsStartsWith s "[" && jsEndsWith s "]") = false →
      parseSlots s = ((jsSplit s ',').map (fun t => jsParseInt (jsTrim t))).filterMap id) := by
  refine ⟨?_, ?_, ?_, ?_⟩
  · intro hdash h0 h1
    have hps : parsePhases s = phaseRange (some a) (some b) := by
      unfold parsePhases
      rw [if_pos hdash]
      simp only [h0, h1]
    have e2 : phaseRange (some a) (some b) =
        (List.range (b - a + 1).toNat).map (fun (j : Nat) => a + (j : Int)) := rfl
    rw [e2] at hps
    refine ⟨⟨?_, ?_⟩, ?_⟩
    · rw [hps, List.length_map, List.length_range]
    · intro i hi
      rw [hps] at hi ⊢
      rw [List.length_map, List.length_range] at hi
      rw [List.getD_eq_getElem _ _ (by rw [List.length_map, List.length_range]; exact hi)]
      simp only [List.getElem_map, List.getElem_range]
    · intro hba
      have hz : (b - a + 1).toNat = 0 := by omega
      rw [hps, hz]
      rfl
  · intro h
    unfold parsePhases
    rw [if_neg (by simp [h])]
  · intro items xs hbr hparse hint
    unfold parseSlots
    rw [if_pos hbr, hparse]
    simp [hint]
  · intro hbr
    unfold parseSlots
    rw [if_neg (by simp [hbr])]

/-- Witness for C9 at the range `2-4`, the reversed range `4-2`, and a
dash-free input. -/
theorem phase_parsing_witness :
    (parsePhases "2-4").length = ((4 : Int) - 2 + 1).toNat ∧
    parsePhases "4-2" = [] ∧
    parsePhases "x" = parseSlots "x" :=
  ⟨(((phase_parsing "2-4" 2 4).1 (by decide) (by decide) (by decide)).1).1,
   ((phase_parsing "4-2" 4 2).1 (by decide) (by decide) (by decide)).2 (by decide),
   (phase_parsing "x" 0 0).2.1 (by decide)⟩

/-- C7: normalization totality and defaults.  Each normalizer returns
one record per raw row; a missing ID becomes `C`/`W`/`T` followed by
`index+1`, a missing name becomes `Unknown`, missing numeric fields
become 1, comma-separated list fields are split with entries trimmed
and blanks dropped, and `AttributesJSON` falls back to the empty
object when the cell is missing or not valid JSON. -/
theorem normalize_totality_defaults (raws : List RawRow) :
    (normalizeClients raws).length = raws.length ∧
    (normalizeWorkers raws).length = raws.length ∧
    (normalizeTasks raws).length = raws.length ∧
    (∀ i (h : i < (normalizeClients raws).length) (hr : i < raws.length),
      (raws[i].ClientID = none →
        (normalizeClients raws)[i].ClientID = "C" ++ toString (i + 1)) ∧
      (raws[i].ClientName = none → (normalizeClients raws)[i].ClientName = "Unknown") ∧
      (raws[i].PriorityLevel = none → (normalizeClients raws)[i].PriorityLevel = some 1) ∧
      (normalizeClients raws)[i].RequestedTaskIDs =
        splitTrimFilter raws[i].RequestedTaskIDs ∧
      (∀ s, raws[i].AttributesJSON = some s → jsonParse s = none →
        (normalizeClients raws)[i].AttributesJSON = Json.obj []) ∧
      (raws[i].AttributesJSON = none →
        (normalizeClients raws)[i].AttributesJSON = Json.obj [])) ∧
    (∀ i (h : i < (normalizeWorkers raws).length) (hr : i < raws.length),
      (raws[i].WorkerID = none →
        (normalizeWorkers raws)[i].WorkerID = "W" ++ toString (i + 1)) ∧
      (raws[i].WorkerName = none → (normalizeWorkers raws)[i].WorkerName = "Unknown") ∧
      (raws[i].MaxLoadPerPhase = none →
        (normalizeWorkers raws)[i].MaxLoadPerPhase = some 1) ∧
      (raws[i].QualificationLevel = none →
        (normalizeWorkers raws)[i].QualificationLevel = some 1) ∧
      (normalizeWorkers raws)[i].Skills = splitTrimFilter raws[i].Skills) ∧
    (∀ i (h : i < (normalizeTasks raws).length) (hr : i < raws.length),
      (raws[i].TaskID = none → (normalizeTasks raws)[i].TaskID = "T" ++ toString (i + 1)) ∧
      (raws[i].TaskName = none → (normalizeTasks raws)[i].TaskName = "Unknown") ∧
      (raws[i].Duration = none → (normalizeTasks raws)[i].Duration = some 1) ∧
      (raws[i].MaxConcurrent = none → (normalizeTasks raws)[i].MaxConcurrent = some 1) ∧
      (normalizeTasks raws)[i].RequiredSkills = splitTrimFilter raws[i].RequiredSkills) := by
  refine ⟨by simp [normalizeClients], by simp [normalizeWorkers], by simp [normalizeTasks],
    ?_, ?_, ?_⟩
  · intro i h hr
    refine ⟨?_, ?_, ?_, ?_, ?_, ?_⟩
    · intro h1
      simp [normalizeClients, List.getElem_mapIdx, normalizeClientRow, h1, orDefault]
    · intro h1
      simp [normalizeClients, List.getElem_mapIdx, normalizeClientRow, h1, orDefault]
    · intro h1
      simp only [normalizeClients, List.getElem_mapIdx, normalizeClientRow, h1, orDefault]
      decide
    · simp [normalizeClients, List.getElem_mapIdx, normalizeClientRow]
    · intro s h1 h2
      simp [normalizeClients, List.getElem_mapIdx, normalizeClientRow, h1, h2]
    · intro h1
      simp [normalizeClients, List.getElem_mapIdx, normalizeClientRow, h1]
  · intro i h hr
    refine ⟨?_, ?_, ?_, ?_, ?_⟩
    · intro h1
      simp [normalizeWorkers, List.getElem_mapIdx, normalizeWorkerRow, h1, orDefault]
    · intro h1
      simp [normalizeWorkers, List.getElem_mapIdx, normalizeWorkerRow, h1, orDefault]
    · intro h1
      simp only [normalizeWorkers, List.getElem_mapIdx, normalizeWorkerRow, h1, orDefault]
      decide
    · intro h1
      simp only [normalizeWorkers, List.getElem_mapIdx, normalizeWorkerRow, h1, orDefault]
      decide
    · simp [normalizeWorkers, List.getElem_mapIdx, normalizeWorkerRow]
  · intro i h hr
    refine ⟨?_, ?_, ?_, ?_, ?_⟩
    · intro h1
      simp [normalizeTasks, List.getElem_mapIdx, normalizeTaskRow, h1, orDefault]
    · intro h1
      simp [normalizeTasks, List.getElem_mapIdx, normalizeTaskRow, h1, orDefault]
    · intro h1
      simp only [normalizeTasks, List.getElem_mapIdx, normalizeTaskRow, h1, orDefault]
      decide
    · intro h1
      simp only [normalizeTasks, List.getElem_mapIdx, normalizeTaskRow, h1, orDefault]
      decide
    · simp [normalizeTasks, List.getElem_mapIdx, normalizeTaskRow]

/-- Witness for C7 at a one-row upload whose cells are all missing
except an invalid `AttributesJSON`. -/
theorem normalize_totality_defaults_witness :
    (normalizeClients [{ RawRow.empty with AttributesJSON := some "notjson" }]).length = 1 ∧
    (normalizeClients
        [{ RawRow.empty with AttributesJSON := some "notjson" }])[0].ClientID = "C1" ∧
    (normalizeClients
        [{ RawRow.empty with AttributesJSON := some "notjson" }])[0].AttributesJSON =
      Json.obj [] ∧
    (normalizeTasks [{ RawRow.empty with AttributesJSON := some "notjson" }])[0].Duration =
      some 1 :=
  ⟨(normalize_totality_defaults [{ RawRow.empty with AttributesJSON := some "notjson" }]).1,
   ((normalize_totality_defaults
        [{ RawRow.empty with AttributesJSON := some "notjson" }]).2.2.2.1 0
      (by decide) (by decide)).1 rfl,
   (((normalize_totality_defaults
        [{ RawRow.empty with AttributesJSON := some "notjson" }]).2.2.2.1 0
      (by decide) (by decide)).2.2.2.2.1 "notjson" rfl (by rfl)),
   (((normalize_totality_defaults
        [{ RawRow.empty with AttributesJSON := some "notjson" }]).2.2.2.2.2 0
      (by decide) (by decide)).2.2.1 rfl)⟩

end DataAlchemist
